import Mathlib

/-!
Verification of the command classification / dispatch engine and the
multi-provider AI fallback chain of the VoiceSocialAI repository.

Strings are embedded as lists of character codes (`List Nat`, built by
`codes` from a literal), so that every operation of the Python sources
(substring tests, `re.sub`/`re.search` on the concrete patterns the code
uses, `str.split`, `' '.join`, `str.strip`, `str.lower`) becomes an
executable Lean function.  External effects (provider HTTP calls, the
database session, the Gmail/WhatsApp transports) are passed in as explicit
oracles: a call that can raise is an `Except`, a call that reports failure
through its return value is a plain function, matching the corresponding
Python call sites.
-/

/-- Character-code strings: the embedding works on `List Nat`. -/
abbrev Str := List Nat

/-- Character codes of a string literal. -/
def codes (s : String) : Str := s.data.map Char.toNat

/-- Python whitespace test for the ASCII characters that occur here
(space, tab, newline, carriage return, vertical tab, form feed):
the set `\s` matches and `str.split()` / `str.strip()` split on. -/
def isWs (c : Nat) : Bool := c == 32 || c == 9 || c == 10 || c == 13 || c == 11 || c == 12

/-- Lower-casing of one ASCII character code (`str.lower` on the ASCII
range; the commands of the claims are ASCII). -/
def lowCh (c : Nat) : Nat := if 65 ≤ c && c ≤ 90 then c + 32 else c

/-- `str.lower` over a code string. -/
def lowerL (s : Str) : Str := s.map lowCh

/-- When `p` is a prefix of `s`, the rest of `s` after it. -/
def stripPre : Str → Str → Option Str
  | [], s => some s
  | _ :: _, [] => none
  | p :: ps, c :: cs => if p == c then stripPre ps cs else none

/-- Bool prefix test. -/
def isPre (p s : Str) : Bool := (stripPre p s).isSome

/-- Python `p in s`: substring containment. -/
def containsB (p : Str) : Str → Bool
  | [] => isPre p []
  | c :: cs => isPre p (c :: cs) || containsB p cs

/-- Python `str.strip()`: drop leading and trailing whitespace. -/
def trimWs (s : Str) : Str := ((s.dropWhile isWs).reverse.dropWhile isWs).reverse

/-- Fueled worker for `splitWs`; each step consumes at least one character,
so fuel equal to the length of the list is always enough. -/
def splitWsF : Nat → Str → List Str
  | _, [] => []
  | 0, _ => []
  | fuel + 1, c :: cs =>
    if isWs c then splitWsF fuel cs
    else (c :: cs.takeWhile (fun d => !isWs d)) :: splitWsF fuel (cs.dropWhile (fun d => !isWs d))

/-- Python `str.split()` with no argument: the whitespace-separated words,
empty pieces dropped. -/
def splitWs (s : Str) : List Str := splitWsF s.length s

/-- Python `' '.join(words)`. -/
def joinWords : List Str → Str
  | [] => []
  | [w] => w
  | w :: v :: ws => w ++ 32 :: joinWords (v :: ws)

/-- Python `' '.join(s.split())`: whitespace normalisation, as
`CommandProcessor.extract_text_topic` performs before its length check. -/
def normWs (s : Str) : Str := joinWords (splitWs s)

/-! ## Intent Classifier — `CommandProcessor.classify_and_execute_command`

The classifier is the fixed first-match-wins keyword cascade of
command_processor.py lines 77-102; each rule is `any(keyword in text
for keyword in [...])` over the lower-cased command. -/

inductive Intent where
  | facebook_post
  | create_image
  | text_generation
  | system_status
  | auto_reply_status
  | general_query
deriving DecidableEq

/-- `any(keyword in command_text for keyword in ks)`. -/
def kwAny (ks : List Str) (t : Str) : Bool := ks.any (fun k => containsB k t)

/-- The first-match-wins rule cascade of `classify_and_execute_command`,
read off as the intent it dispatches on. -/
def classifyIntent (t : Str) : Intent :=
  if kwAny [codes "facebook", codes "post", codes "share"] t then Intent.facebook_post
  else if kwAny [codes "image", codes "picture", codes "generate", codes "create image"] t then
    Intent.create_image
  else if kwAny [codes "write", codes "blog", codes "article", codes "content",
      codes "reply", codes "email"] t then Intent.text_generation
  else if kwAny [codes "status", codes "how are you", codes "system"] t then Intent.system_status
  else if kwAny [codes "auto reply", codes "email", codes "whatsapp", codes "messages"] t then
    Intent.auto_reply_status
  else Intent.general_query

/-! ## Content sub-type inference — `CommandProcessor.process_text_generation` -/

inductive ContentType where
  | social_post
  | blog_article
  | email_reply
  | creative_story
  | review
  | tutorial
  | product_description
  | news_article
deriving DecidableEq

/-- The if/elif keyword chain of process_text_generation lines 204-218
(default `social_post`). -/
def inferContentType (t : Str) : ContentType :=
  if containsB (codes "blog") t || containsB (codes "article") t then ContentType.blog_article
  else if containsB (codes "email") t || containsB (codes "reply") t then ContentType.email_reply
  else if containsB (codes "story") t then ContentType.creative_story
  else if containsB (codes "review") t then ContentType.review
  else if containsB (codes "tutorial") t || containsB (codes "guide") t then ContentType.tutorial
  else if containsB (codes "product") t then ContentType.product_description
  else if containsB (codes "news") t then ContentType.news_article
  else ContentType.social_post

/-! ## The removal patterns of `CommandProcessor.extract_text_topic`

`extract_text_topic` runs `re.sub(pattern, ' ', topic)` for a fixed list of
patterns.  Each pattern is compiled here to a matcher `Str → Option Str`
returning, when the pattern matches at the head of the input, the rest of
the input after the matched span; `subSub` then reproduces `re.sub`'s
left-to-right scan with replacement `' '`.

`tryVerb v` is `v + \s+ + (a|an)? + \s*`.  Python's alternation is ordered:
after the mandatory whitespace the branch `a` is tried first and the
remaining `\s*` can never fail, so the group consumes exactly one `a`
whenever the next character is `a` (never the two characters of `an`), and
the whitespace runs are consumed greedily. -/

def tryVerb (v : Str) (s : Str) : Option Str :=
  match stripPre v s with
  | none => none
  | some [] => none
  | some (c :: t) =>
    if isWs c then
      some (match t.dropWhile isWs with
            | a :: t2 => if a == 97 then t2.dropWhile isWs else a :: t2
            | [] => [])
    else none

/-- Matcher for `l1 + \s* + l2` (the two-word content types after
`content_type.replace('_', '\\s*')`): greedy `\s*` then the literal `l2`,
which starts with a non-whitespace character, so no backtracking can
succeed after the maximal whitespace run fails. -/
def tryLWL (l1 l2 : Str) (s : Str) : Option Str :=
  match stripPre l1 s with
  | none => none
  | some r => stripPre l2 (r.dropWhile isWs)

/-- Matcher for `w + \s*` (the patterns `about\s*`, `for\s*`, `on\s*`). -/
def tryWordWs (w : Str) (s : Str) : Option Str :=
  (stripPre w s).map (fun r => r.dropWhile isWs)

/-- The pattern `content_type.replace('_', '\\s*')`: the underscore of a
two-word content type becomes `\s*`; a one-word content type is a plain
literal. -/
def ctPat : ContentType → Str × Option Str
  | ContentType.social_post => (codes "social", some (codes "post"))
  | ContentType.blog_article => (codes "blog", some (codes "article"))
  | ContentType.email_reply => (codes "email", some (codes "reply"))
  | ContentType.creative_story => (codes "creative", some (codes "story"))
  | ContentType.review => (codes "review", none)
  | ContentType.tutorial => (codes "tutorial", none)
  | ContentType.product_description => (codes "product", some (codes "description"))
  | ContentType.news_article => (codes "news", some (codes "article"))

/-- Matcher of a compiled content-type pattern. -/
def tryCt : Str × Option Str → Str → Option Str
  | (l1, none), s => stripPre l1 s
  | (l1, some l2), s => tryLWL l1 l2 s

/-- Fueled `re.sub(pattern, ' ', s)` scan: at each position try the matcher;
on a match emit one space and continue after the matched span, otherwise
keep the character.  Every matcher here consumes at least one character on
a match, so fuel equal to the length of the input is always enough. -/
def subScanF (m : Str → Option Str) : Nat → Str → Str
  | _, [] => []
  | 0, s => s
  | fuel + 1, c :: cs =>
    match m (c :: cs) with
    | none => c :: subScanF m fuel cs
    | some rest => 32 :: subScanF m fuel rest

/-- `re.sub(pattern, ' ', s)` for a head matcher `m`. -/
def subSub (m : Str → Option Str) (s : Str) : Str := subScanF m s.length s

/-- `CommandProcessor.extract_text_topic` (command_processor.py 269-293):
lower-case, apply the eight removal substitutions in the order of
`patterns_to_remove`, normalise whitespace, and return the topic only when
more than two characters remain. -/
def extractTextTopic (cmd : Str) (ct : ContentType) : Option Str :=
  let t0 := lowerL cmd
  let t1 := subSub (tryVerb (codes "write")) t0
  let t2 := subSub (tryVerb (codes "create")) t1
  let t3 := subSub (tryVerb (codes "generate")) t2
  let t4 := subSub (tryVerb (codes "make")) t3
  let t5 := subSub (tryCt (ctPat ct)) t4
  let t6 := subSub (tryWordWs (codes "about")) t5
  let t7 := subSub (tryWordWs (codes "for")) t6
  let t8 := subSub (tryWordWs (codes "on")) t7
  let topic := normWs t8
  if 2 < topic.length then some topic else none

/-! ## Slot Extractor — `CommandProcessor.extract_topic_from_command`

The phase-1 patterns are sequences of literals and `.*` ending in the
capture `(.+)`.  `matchAt` reproduces the backtracking engine on this
fragment: a greedy `.*` prefers the longest consumed span (the shortest
continuation is tried last... see below), and the final `(.+)` greedily
captures the whole remaining text (the command strings contain no
newline).  `reSearch` is `re.search`: the leftmost starting position wins.
The commands of the claims are lower-case, for which `re.IGNORECASE`
matching coincides with the literal matching used here. -/

inductive RTok where
  | lit (l : Str)
  | dotstar
deriving DecidableEq

/-- The suffixes of a string, longest first. -/
def tails : Str → List Str
  | [] => [[]]
  | c :: cs => (c :: cs) :: tails cs

/-- First candidate on which `f` yields a value. -/
def firstSomeL (f : Str → Option Str) : List Str → Option Str
  | [] => none
  | x :: xs =>
    match f x with
    | some r => some r
    | none => firstSomeL f xs

/-- Match a token sequence (implicitly followed by the capture `(.+)`)
at the head of `s`; the returned string is the captured group.  A greedy
`.*` consumes as much as possible: the continuations are tried shortest
first, i.e. the suffix list reversed. -/
def matchAt : List RTok → Str → Option Str
  | [], s => if s.isEmpty then none else some s
  | RTok.lit l :: ts, s =>
    match stripPre l s with
    | none => none
    | some r => matchAt ts r
  | RTok.dotstar :: ts, s => firstSomeL (fun v => matchAt ts v) (tails s).reverse

/-- `re.search` over the token form of a pattern: first matching start
position, then the captured group. -/
def reSearch (p : List RTok) : Str → Option Str
  | [] => matchAt p []
  | c :: cs =>
    match matchAt p (c :: cs) with
    | some g => some g
    | none => reSearch p cs

/-- The two command types that `extract_topic_from_command`'s `patterns` /
`keywords` dictionaries know. -/
inductive TopicKind where
  | post
  | image
deriving DecidableEq

/-- The `patterns` table (command_processor.py 411-428), each regex compiled
to its token sequence (the trailing `(.+)` is implicit). -/
def tkPatterns : TopicKind → List (List RTok)
  | TopicKind.post =>
    [[RTok.lit (codes "post about ")],
     [RTok.lit (codes "create"), RTok.dotstar, RTok.lit (codes "post"), RTok.dotstar,
      RTok.lit (codes "about ")],
     [RTok.lit (codes "facebook"), RTok.dotstar, RTok.lit (codes "about ")],
     [RTok.lit (codes "share ")],
     [RTok.lit (codes "post ")]]
  | TopicKind.image =>
    [[RTok.lit (codes "generate"), RTok.dotstar, RTok.lit (codes "image"), RTok.dotstar,
      RTok.lit (codes "of ")],
     [RTok.lit (codes "create"), RTok.dotstar, RTok.lit (codes "image"), RTok.dotstar,
      RTok.lit (codes "of ")],
     [RTok.lit (codes "make"), RTok.dotstar, RTok.lit (codes "picture"), RTok.dotstar,
      RTok.lit (codes "of ")],
     [RTok.lit (codes "image of ")],
     [RTok.lit (codes "picture of ")],
     [RTok.lit (codes "generate ")],
     [RTok.lit (codes "create ")]]

/-- The `keywords` table (command_processor.py 437-440). -/
def tkKeywords : TopicKind → List Str
  | TopicKind.post => [codes "post", codes "about", codes "facebook"]
  | TopicKind.image => [codes "image", codes "picture", codes "generate", codes "create"]

/-- Python `s.split(kw, 1)[1]` when `kw` occurs in `s`: the text after the
first occurrence. -/
def splitOnceAfter (kw : Str) : Str → Option Str
  | [] => stripPre kw []
  | c :: cs =>
    match stripPre kw (c :: cs) with
    | some r => some r
    | none => splitOnceAfter kw cs

/-- One alternative of `re.sub(r'^(of|about|on|for)\s+', '', topic)`: the
word `w` at the start followed by at least one whitespace character, the
whole whitespace run removed. -/
def stripStopOne (w : Str) (t : Str) : Option Str :=
  match stripPre w t with
  | some (c :: r) => if isWs c then some ((c :: r).dropWhile isWs) else none
  | _ => none

/-- `re.sub(r'^(of|about|on|for)\s+', '', topic)`: the alternatives in the
pattern's order, anchored at the start. -/
def stripLeadStop (t : Str) : Str :=
  match stripStopOne (codes "of") t with
  | some r => r
  | none =>
    match stripStopOne (codes "about") t with
    | some r => r
    | none =>
      match stripStopOne (codes "on") t with
      | some r => r
      | none =>
        match stripStopOne (codes "for") t with
        | some r => r
        | none => t

/-- Phase 1 of `extract_topic_from_command`: the intent's regex patterns in
order, first match wins, captured group stripped. -/
def phase1 : List (List RTok) → Str → Option Str
  | [], _ => none
  | p :: rest, cmd =>
    match reSearch p cmd with
    | some g => some (trimWs g)
    | none => phase1 rest cmd

/-- Phase 2 of `extract_topic_from_command`: split on the first occurrence
of each keyword, strip, drop a leading stop word; an empty remainder moves
on to the next keyword. -/
def phase2 : List Str → Str → Option Str
  | [], _ => none
  | kw :: rest, cmd =>
    match splitOnceAfter kw cmd with
    | none => phase2 rest cmd
    | some r =>
      let topic := stripLeadStop (trimWs r)
      if topic.isEmpty then phase2 rest cmd else some topic

/-- `CommandProcessor.extract_topic_from_command` (lines 407-457): phase-1
regex patterns, then keyword splitting; `None` when both fail. -/
def extractTopicFromCommand (cmd : Str) (k : TopicKind) : Option Str :=
  match phase1 (tkPatterns k) cmd with
  | some t => some t
  | none => phase2 (tkKeywords k) cmd

/-! ## Command Dispatcher — `CommandProcessor.process_command` and the
facebook-post / general-query handlers -/

/-- The structured result every handler and the dispatcher return:
`{'success': ..., 'message': ..., 'command_type': ...}` (the optional
`data` entry carries no behaviour the claims mention). -/
structure CmdResult where
  success : Bool
  message : Str
  commandType : Str
deriving DecidableEq

/-- What `facebook_service.create_post_with_ai_content` hands back on a
non-exceptional return: the pieces of the result dict the handler reads. -/
structure FbData where
  imagePath : Option Str
  errorMsg : Option Str
deriving DecidableEq

/-- `CommandProcessor.process_facebook_post` (lines 104-147).  The Facebook
collaborator is the oracle `fbCreate` (an `Except` since the call can
raise, caught by the handler's own try).  The second component records
whether the collaborator was invoked at all. -/
def processFacebookPost (fbCreate : Str → Bool → Except Str (Bool × FbData)) (cmd : Str) :
    CmdResult × Bool :=
  match extractTopicFromCommand cmd TopicKind.post with
  | none =>
    ({ success := false,
       message := codes "I couldn't understand what you want to post about. Please specify a topic.",
       commandType := codes "facebook_post" }, false)
  | some topic =>
    let includeImage := kwAny [codes "image", codes "picture", codes "photo"] cmd
    match fbCreate topic includeImage with
    | Except.error e =>
      ({ success := false, message := codes "Error creating Facebook post: " ++ e,
         commandType := codes "facebook_post" }, true)
    | Except.ok (true, d) =>
      let msg := codes "Successfully created Facebook post about " ++ topic
      ({ success := true,
         message := if d.imagePath.isSome then msg ++ codes " with an AI-generated image" else msg,
         commandType := codes "facebook_post" }, true)
    | Except.ok (false, d) =>
      ({ success := false,
         message := codes "Failed to create Facebook post: "
           ++ (d.errorMsg.getD (codes "Unknown error")),
         commandType := codes "facebook_post" }, true)

/-- `command_text.lower().strip()` at the top of `process_command`. -/
def normalizeCmd (s : Str) : Str := trimWs (lowerL s)

/-- `CommandProcessor.process_command` (lines 22-75).  The best-effort
database writes sit in their own inner try blocks: their outcome (the
`Except` oracles `dbCreate`, `dbUpdate`) never reaches the returned
result.  `voice_service.speak` catches internally and returns a Bool, so
it cannot raise.  `exec` is `classify_and_execute_command`, whose
exceptions the outer try converts into the error result. -/
def processCommand (dbCreate : Except Str Unit) (dbUpdate : CmdResult → Except Str Unit)
    (exec : Str → Except Str CmdResult) (cmd : Str) : CmdResult :=
  let c := normalizeCmd cmd
  match exec c with
  | Except.ok r => r
  | Except.error e =>
    { success := false, message := codes "Sorry, I encountered an error: " ++ e,
      commandType := codes "error" }

/-! ## Fallback Invoker — `MultiAIService` (multi_ai_service.py) -/

/-- The fields of an `AIProvider` dataclass the fallback loop reads (the
model-name table only parameterises the transport call, abstracted into
the call oracle). -/
structure AIProvider where
  name : Str
  apiKey : Str
  capabilities : List Str
deriving DecidableEq

/-- `os.environ.get(key, "")` over an environment snapshot. -/
def envGet (env : List (Str × Str)) (k : Str) : Str :=
  match env with
  | [] => []
  | (k2, v) :: rest => if k2 == k then v else envGet rest k

/-- `MultiAIService._initialize_providers` (lines 28-100): the provider
registry, with each `api_key` read from the environment once, at
construction. -/
def initializeProviders (env : List (Str × Str)) : List (Str × AIProvider) :=
  [(codes "openrouter",
    { name := codes "OpenRouter", apiKey := envGet env (codes "OPENROUTER_API_KEY"),
      capabilities := [codes "text", codes "code", codes "reasoning", codes "image"] }),
   (codes "deepseek",
    { name := codes "DeepSeek", apiKey := envGet env (codes "DEEPSEEK_API_KEY"),
      capabilities := [codes "text", codes "code", codes "reasoning", codes "math"] }),
   (codes "huggingface",
    { name := codes "Hugging Face", apiKey := envGet env (codes "HUGGINGFACE_API_KEY"),
      capabilities := [codes "text", codes "image", codes "translation", codes "audio"] }),
   (codes "gemini",
    { name := codes "Google Gemini", apiKey := envGet env (codes "GEMINI_API_KEY"),
      capabilities := [codes "text", codes "image", codes "vision", codes "multimodal"] }),
   (codes "together",
    { name := codes "Together AI", apiKey := envGet env (codes "TOGETHER_API_KEY"),
      capabilities := [codes "text", codes "code", codes "image"] })]

/-- Dictionary lookup `self.providers[name]` guarded by
`name not in self.providers`. -/
def lookupProv (reg : List (Str × AIProvider)) (n : Str) : Option AIProvider :=
  match reg with
  | [] => none
  | (k, p) :: rest => if k == n then some p else lookupProv rest n

/-- Outcome of one provider transport call `_call_text_api`: a success,
a returned failure (non-200 status), or a raised exception. -/
inductive CallOutcome where
  | success (payload : Str)
  | failure (err : Str)
  | exn (msg : Str)
deriving DecidableEq

def isSuccessO : CallOutcome → Bool
  | CallOutcome.success _ => true
  | _ => false

/-- `providers_to_try` when no explicit provider is passed to
`generate_text`. -/
def defaultTextOrder : List Str :=
  [codes "openrouter", codes "deepseek", codes "gemini", codes "huggingface"]

/-- The condition under which `generate_text` invokes a provider: present
in the registry, a non-empty `api_key`, and `'text'` among its
capabilities. -/
def textEligible (reg : List (Str × AIProvider)) (n : Str) : Bool :=
  match lookupProv reg n with
  | none => false
  | some p => !p.apiKey.isEmpty && p.capabilities.any (fun c => c == codes "text")

/-- The provider loop of `MultiAIService.generate_text` (lines 134-150):
skip a name not in the registry; skip on missing key or missing `text`
capability; otherwise call the transport — return on success, continue on
a returned failure or an exception; the synthesized failure after
exhaustion.  The second component lists the providers actually called, in
order. -/
def generateTextGo (reg : List (Str × AIProvider)) (call : Str → CallOutcome) :
    List Str → (Bool × Str) × List Str
  | [] => ((false, codes "All AI providers failed to generate text response."), [])
  | n :: rest =>
    match lookupProv reg n with
    | none => generateTextGo reg call rest
    | some p =>
      if p.apiKey.isEmpty || !p.capabilities.any (fun c => c == codes "text") then
        generateTextGo reg call rest
      else
        match call n with
        | CallOutcome.success r => ((true, r), [n])
        | CallOutcome.failure _ =>
          let t := generateTextGo reg call rest
          (t.1, n :: t.2)
        | CallOutcome.exn _ =>
          let t := generateTextGo reg call rest
          (t.1, n :: t.2)

/-- `MultiAIService.generate_text` (lines 127-150): the explicit provider
argument, when given, replaces the default order (the language-prompt
enhancement only rewrites the prompt inside the call oracle). -/
def mGenerateText (reg : List (Str × AIProvider)) (call : Str → CallOutcome)
    (providerArg : Option Str) : (Bool × Str) × List Str :=
  generateTextGo reg call
    (match providerArg with
     | some p => [p]
     | none => defaultTextOrder)

/-! ## `TextAIService` (text_ai_service.py): per-call credential checks -/

/-- `provider_order` in `TextAIService.generate_content`. -/
def taProviderOrder : List Str :=
  [codes "gemini", codes "openai", codes "huggingface", codes "aiml"]

/-- `TextAIService._is_provider_available` (lines 264-274): a fresh
`os.getenv` against the current environment on every call. -/
def taIsProviderAvailable (env : List (Str × Str)) (p : Str) : Bool :=
  if p == codes "gemini" then !(envGet env (codes "GEMINI_API_KEY")).isEmpty
  else if p == codes "openai" then !(envGet env (codes "OPENAI_API_KEY")).isEmpty
  else if p == codes "huggingface" then !(envGet env (codes "HUGGINGFACE_API_KEY")).isEmpty
  else if p == codes "aiml" then !(envGet env (codes "AIML_API_KEY")).isEmpty
  else false

/-- The provider loop of `TextAIService.generate_content` (lines 120-151):
`env` is the environment as of this call.  The call oracle returns `none`
for the three continue paths (an exception, a `None`, or empty content);
post-processing of a successful result does not affect which providers
run.  The second component lists the providers actually called. -/
def taGenerateContentGo (env : List (Str × Str)) (call : Str → Option Str) :
    List Str → Option (Str × Str) × List Str
  | [] => (none, [])
  | p :: rest =>
    if taIsProviderAvailable env p then
      match call p with
      | some content => (some (p, content), [p])
      | none =>
        let t := taGenerateContentGo env call rest
        (t.1, p :: t.2)
    else taGenerateContentGo env call rest

/-! ## `GeminiService.generate_text_response` and the general-query path -/

/-- The canned total-exhaustion reply of `generate_text_response`
(gemini_service.py line 50). -/
def apologyMsg : Str :=
  codes "I'm currently unable to generate a response. Please check your AI API keys in settings or try again later."

/-- The guarded Gemini attempt at the top of `generate_text_response`:
skipped when no client was constructed; a raised exception or an empty
`response.text` falls through. -/
def geminiTryPart (clientSome : Bool) (gem : Str → Except Str (Option Str)) (prompt : Str) :
    Option Str :=
  if clientSome then
    match gem prompt with
    | Except.ok (some t) => if t.isEmpty then none else some t
    | Except.ok none => none
    | Except.error _ => none
  else none

/-- `GeminiService.generate_text_response` (lines 24-50): Gemini, then the
Hugging Face helper, then the AIML helper (both catch internally and
return an optional non-empty text), then the canned apology.  Total: it
never raises. -/
def generateTextResponse (clientSome : Bool) (gem : Str → Except Str (Option Str))
    (hf aiml : Str → Option Str) (prompt : Str) : Str :=
  match geminiTryPart clientSome gem prompt with
  | some t => t
  | none =>
    match hf prompt with
    | some t => t
    | none =>
      match aiml prompt with
      | some t => t
      | none => apologyMsg

/-- `CommandProcessor.process_general_query` (lines 295-312): whatever
string the generator returns is wrapped in a success result (the except
branch is unreachable when the generator is total, as
`generate_text_response` is). -/
def processGeneralQuery (gen : Str → Str) (cmd : Str) : CmdResult :=
  { success := true, message := gen cmd, commandType := codes "general_query" }

/-! ## Auto-Reply Processor — `EmailService.process_auto_replies` -/

/-- The fields of one unread inbox item the pass reads. -/
structure EmailItem where
  idStr : Str
  sender : Str
  subject : Str
  body : Str
  snippet : Str
deriving DecidableEq

/-- `email['body'] or email['snippet']`. -/
def origOf (it : EmailItem) : Str := if it.body.isEmpty then it.snippet else it.body

/-- One entry of the list `process_auto_replies` returns. -/
structure PassEntry where
  sender : Str
  subject : Str
  info : Str
  status : Str
deriving DecidableEq

/-- A persisted `AutoReplyLog` row. -/
structure AutoReplyRecord where
  platform : Str
  sender : Str
  originalMessage : Str
  replyMessage : Str
  status : Str
deriving DecidableEq

def sentEntry (it : EmailItem) (reply : Str) : PassEntry :=
  { sender := it.sender, subject := it.subject, info := reply, status := codes "sent" }

def failedEntry (it : EmailItem) (err : Str) : PassEntry :=
  { sender := it.sender, subject := it.subject, info := err, status := codes "failed" }

def sentRecord (it : EmailItem) (reply : Str) : AutoReplyRecord :=
  { platform := codes "email", sender := it.sender, originalMessage := origOf it,
    replyMessage := reply, status := codes "sent" }

/-- The item loop of `process_auto_replies` (email_service.py 169-206),
which runs inside one try block covering the whole pass.
`gen` is `gemini_service.generate_auto_reply` (total: every network path
inside it is caught and a canned reply substitutes).  `send` is
`send_reply`, which catches internally and reports failure through its
Bool.  `logDb` is the `AutoReplyLog` add-and-commit, the one step of the
loop that can raise.  First component: the `processed` list, or the
exception; second component: the rows committed before any exception. -/
def processItems (gen : Str → Str) (send : Str → Str → Bool × Str)
    (logDb : EmailItem → Str → Except Str Unit) :
    List EmailItem → Except Str (List PassEntry) × List AutoReplyRecord
  | [] => (Except.ok [], [])
  | it :: rest =>
    let reply := gen (origOf it)
    let sres := send it.idStr reply
    if sres.1 then
      match logDb it reply with
      | Except.error e => (Except.error e, [])
      | Except.ok _ =>
        let t := processItems gen send logDb rest
        (t.1.map (fun l => sentEntry it reply :: l), sentRecord it reply :: t.2)
    else
      let t := processItems gen send logDb rest
      (t.1.map (fun l => failedEntry it sres.2 :: l), t.2)

/-- `EmailService.process_auto_replies` (lines 158-212) with the Gmail
service available: the outer except returns `[]`, discarding the partial
`processed` list; database rows committed before the exception persist. -/
def processAutoReplies (gen : Str → Str) (send : Str → Str → Bool × Str)
    (logDb : EmailItem → Str → Except Str Unit) (items : List EmailItem) :
    List PassEntry × List AutoReplyRecord :=
  match processItems gen send logDb items with
  | (Except.ok l, ds) => (l, ds)
  | (Except.error _, ds) => ([], ds)

/-! ## Infrastructure for reasoning about the `re.sub` scans

`NoMatch m x` says the matcher `m` matches at no position of `x`; the
`..DF` checkers decide, from a concrete prefix alone, that a matcher fails
there whatever follows (the matcher's literal mismatches inside the
prefix, or its trailing test is settled inside the prefix). -/

/-- The pattern `m` matches at no position of `x`. -/
def NoMatch (m : Str → Option Str) (x : Str) : Prop := ∀ t, t <:+ x → m t = none

/-- A mismatch between `p` and `a` inside their overlap: then `p` is a
prefix of no extension of `a`. -/
def clash : Str → Str → Bool
  | [], _ => false
  | _, [] => false
  | p :: ps, a :: rest => p != a || clash ps rest

/-- The checker `g` accepts every nonempty suffix of the prefix. -/
def allDF (g : Str → Bool) : Str → Bool
  | [] => true
  | c :: cs => g (c :: cs) && allDF g cs

/-- The rest after the literal starts with a non-whitespace character
(so the mandatory `\s+` of a verb pattern fails there). -/
def afterNonWs : Option Str → Bool
  | some (c :: _) => !isWs c
  | _ => false

/-- `tryVerb v` definitely fails on every extension of `a`. -/
def verbDF (v : Str) (a : Str) : Bool :=
  clash v a || afterNonWs (stripPre v a)

/-- After the first literal and the whitespace run, a non-whitespace
character remains in the prefix and the second literal clashes there. -/
def lwlDFAux (l2 : Str) : Option Str → Bool
  | none => false
  | some r =>
    match r.dropWhile isWs with
    | [] => false
    | c :: cs => clash l2 (c :: cs)

/-- `tryLWL l1 l2` definitely fails on every extension of `a`. -/
def lwlDF (l1 l2 : Str) (a : Str) : Bool :=
  clash l1 a || lwlDFAux l2 (stripPre l1 a)

/-- `tryWordWs w` definitely fails on every extension of `a`. -/
def wordDF (w : Str) (a : Str) : Bool := clash w a

/-! ## Concrete fixtures used by the witnesses and counterexamples -/

/-- A provider registry built from an environment where OpenRouter,
DeepSeek and Gemini have credentials (the A/B/C scenario of the spec). -/
def regABC : List (Str × AIProvider) :=
  initializeProviders
    [(codes "OPENROUTER_API_KEY", codes "ka"), (codes "DEEPSEEK_API_KEY", codes "kb"),
     (codes "GEMINI_API_KEY", codes "kc")]

/-- A(openrouter) fails, B(deepseek) succeeds, C(gemini) would succeed but
must never be called. -/
def callABC (n : Str) : CallOutcome :=
  if n == codes "openrouter" then CallOutcome.failure (codes "boom")
  else if n == codes "deepseek" then CallOutcome.success (codes "reply-B")
  else CallOutcome.success (codes "reply-C")

def itemA : EmailItem :=
  { idStr := codes "m1", sender := codes "alice", subject := codes "hello 1",
    body := codes "ping one", snippet := codes "snip1" }

def itemB : EmailItem :=
  { idStr := codes "m2", sender := codes "bob", subject := codes "hello 2",
    body := codes "ping two", snippet := codes "snip2" }

def itemC : EmailItem :=
  { idStr := codes "m3", sender := codes "carol", subject := codes "hello 3",
    body := codes "ping three", snippet := codes "snip3" }

/-- A deterministic reply generator. -/
def genW (orig : Str) : Str := codes "auto: " ++ orig

/-- Every send succeeds. -/
def sendW (_idStr _reply : Str) : Bool × Str := (true, codes "Reply sent successfully")

/-- The send of item 2 fails (reported through the returned Bool, as
`send_reply` reports it); the others succeed. -/
def sendW2 (idStr _reply : Str) : Bool × Str :=
  if idStr == codes "m2" then (false, codes "Error: smtp refused")
  else (true, codes "Reply sent successfully")

/-- The database commit raises for item 2. -/
def logW (it : EmailItem) (_reply : Str) : Except Str Unit :=
  if it.idStr == codes "m2" then Except.error (codes "db commit failed") else Except.ok ()

/-- The database commit always succeeds. -/
def logW2 (_it : EmailItem) (_reply : Str) : Except Str Unit := Except.ok ()

/-- The keywords a topic `X` must avoid for the amended C4 statement: the
keywords of the classification rules evaluated before text_generation
(facebook, post, share, image, picture, generate, and create — which
covers the rule-2 keyword "create image"), and the removal-pattern
triggers of `extract_text_topic` (write, create, generate, make, article,
about, for, on), any of which occurring inside `X` would alter
classification or eat into the extracted topic. -/
def kwAvoid : List Str :=
  [codes "facebook", codes "post", codes "share", codes "image", codes "picture",
   codes "write", codes "create", codes "generate", codes "make", codes "article",
   codes "about", codes "for", codes "on"]

/-- `X` contains none of the interfering keywords. -/
def cleanTopic (x : Str) : Bool := kwAvoid.all (fun w => !containsB w x)

/-! # Lemmas about the string primitives -/

theorem stripPre_append_some (p : Str) :
    ∀ (a r x : Str), stripPre p a = some r → stripPre p (a ++ x) = some (r ++ x) := by
  induction p with
  | nil => intro a r x h; simp [stripPre] at h ⊢; simp [h]
  | cons q qs ih =>
    intro a r x h
    cases a with
    | nil => simp [stripPre] at h
    | cons c cs =>
      by_cases hqc : q == c
      · simp [stripPre, hqc] at h ⊢
        exact ih cs r x h
      · simp [stripPre, hqc] at h

theorem stripPre_self (p : Str) : stripPre p p = some [] := by
  induction p with
  | nil => rfl
  | cons q qs ih => simp [stripPre, ih]

theorem stripPre_suffix (p : Str) : ∀ (s r : Str), stripPre p s = some r → r <:+ s := by
  induction p with
  | nil => intro s r h; simp [stripPre] at h; simp [h]
  | cons q qs ih =>
    intro s r h
    cases s with
    | nil => simp [stripPre] at h
    | cons c cs =>
      by_cases hqc : q == c
      · simp [stripPre, hqc] at h
        exact (ih cs r h).trans (List.suffix_cons c cs)
      · simp [stripPre, hqc] at h

theorem dropWhileWs_suffix (q : Nat → Bool) (l : Str) : l.dropWhile q <:+ l := by
  induction l with
  | nil => simp
  | cons c cs ih =>
    by_cases hc : q c
    · rw [List.dropWhile_cons_of_pos hc]
      exact ih.trans (List.suffix_cons c cs)
    · rw [List.dropWhile_cons_of_neg hc]

theorem containsB_of_stripPre (p t : Str) (h : (stripPre p t).isSome) : containsB p t = true := by
  cases t with
  | nil => simp [containsB, isPre] at h ⊢; exact h
  | cons c cs => simp [containsB, isPre, h]

theorem containsB_mono (p : Str) :
    ∀ (s t : Str), t <:+ s → containsB p t = true → containsB p s = true := by
  intro s
  induction s with
  | nil =>
    intro t ht h
    rw [List.suffix_nil.mp ht] at h
    exact h
  | cons c cs ih =>
    intro t ht h
    rcases List.suffix_cons_iff.mp ht with h1 | h1
    · rw [h1] at h; exact h
    · have := ih t h1 h
      simp [containsB, this]

theorem containsB_append_self (a p : Str) : containsB p (a ++ p) = true :=
  containsB_mono p (a ++ p) p ⟨a, rfl⟩
    (containsB_of_stripPre p p (by simp [stripPre_self]))

theorem containsB_append_right (p : Str) :
    ∀ (a x : Str), containsB p a = true → containsB p (a ++ x) = true := by
  intro a
  induction a with
  | nil =>
    intro x h
    simp only [containsB, isPre] at h
    cases p with
    | nil =>
      cases x with
      | nil => simpa [containsB, isPre, stripPre]
      | cons c cs => simp [containsB, isPre, stripPre]
    | cons q qs => simp [stripPre] at h
  | cons c cs ih =>
    intro x h
    simp only [containsB, Bool.or_eq_true] at h
    rcases h with h | h
    · rcases Option.isSome_iff_exists.mp h with ⟨r, hr⟩
      have h2 := stripPre_append_some p (c :: cs) r x hr
      rw [List.cons_append] at h2
      simp [containsB, isPre, h2]
    · have h2 := ih x h
      simp [containsB, h2]

theorem stripPre_pre_trans (p q : Str) :
    ∀ (t : Str), (stripPre p q).isSome → (stripPre q t).isSome → (stripPre p t).isSome := by
  induction p generalizing q with
  | nil => intro t _ _; simp [stripPre]
  | cons a ps ih =>
    intro t h1 h2
    cases q with
    | nil => simp [stripPre] at h1
    | cons b qs =>
      by_cases hab : a == b
      · cases t with
        | nil => simp [stripPre] at h2
        | cons c ts =>
          by_cases hbc : b == c
          · have hac : a == c := by
              have e1 : a = b := by simpa using hab
              have e2 : b = c := by simpa using hbc
              simp [e1, e2]
            simp [stripPre, hab, hbc, hac] at h1 h2 ⊢
            exact ih qs ts h1 h2
          · simp [stripPre, hbc] at h2
      · simp [stripPre, hab] at h1

theorem containsB_sub_of_pre (p q : Str) (hpq : (stripPre p q).isSome) :
    ∀ (x : Str), containsB q x = true → containsB p x = true := by
  intro x
  induction x with
  | nil =>
    intro h
    simp only [containsB, isPre] at h ⊢
    exact stripPre_pre_trans p q [] hpq h
  | cons c cs ih =>
    intro h
    simp only [containsB, isPre, Bool.or_eq_true] at h ⊢
    rcases h with h | h
    · exact Or.inl (stripPre_pre_trans p q (c :: cs) hpq h)
    · exact Or.inr (ih h)

/-! # Lemmas about the substitution scan -/

theorem subScanF_id (m : Str → Option Str) :
    ∀ (fuel : Nat) (x : Str), NoMatch m x → subScanF m fuel x = x := by
  intro fuel
  induction fuel with
  | zero => intro x _; cases x <;> rfl
  | succ n ih =>
    intro x hx
    cases x with
    | nil => rfl
    | cons c cs =>
      have h1 : m (c :: cs) = none := hx _ (List.suffix_refl _)
      have h2 : NoMatch m cs := fun t ht => hx t (ht.trans (List.suffix_cons c cs))
      simp [subScanF, h1, ih cs h2]

theorem scan_skip (m : Str → Option Str) (s : Str) (h : NoMatch m s) : subSub m s = s :=
  subScanF_id m s.length s h

theorem scan_front (m : Str → Option Str) (s r : Str) (fuel : Nat)
    (hm : m s = some r) (hr : NoMatch m r) (hne : s ≠ []) (hf : 1 ≤ fuel) :
    subScanF m fuel s = 32 :: r := by
  obtain ⟨k, rfl⟩ : ∃ k, fuel = k + 1 := ⟨fuel - 1, by omega⟩
  cases s with
  | nil => exact absurd rfl hne
  | cons c cs => simp [subScanF, hm, subScanF_id m k r hr]

theorem scan_front' (m : Str → Option Str) (s r : Str)
    (hm : m s = some r) (hr : NoMatch m r) (hne : s ≠ []) :
    subSub m s = 32 :: r := by
  have hp : 1 ≤ s.length := by
    cases s with
    | nil => exact absurd rfl hne
    | cons c cs => simp
  exact scan_front m s r s.length hm hr hne hp

theorem scan_walk (m : Str → Option Str) (g : Str → Bool)
    (gsound : ∀ a x, g a = true → m (a ++ x) = none) :
    ∀ (b : Str), (∀ b2, b2 <:+ b → b2 ≠ [] → g b2 = true) → ∀ (fuel : Nat) (y : Str),
      subScanF m (b.length + fuel) (b ++ y) = b ++ subScanF m fuel y := by
  intro b
  induction b with
  | nil => intro _ fuel y; simp
  | cons c cs ih =>
    intro hb fuel y
    have h1 : m ((c :: cs) ++ y) = none := gsound (c :: cs) y (hb _ (List.suffix_refl _) (by simp))
    have h2 : ∀ b2, b2 <:+ cs → b2 ≠ [] → g b2 = true :=
      fun b2 hs hne => hb b2 (hs.trans (List.suffix_cons c cs)) hne
    rw [show (c :: cs).length + fuel = (cs.length + fuel) + 1 by simp; omega]
    simp only [List.cons_append]
    rw [show subScanF m ((cs.length + fuel) + 1) (c :: (cs ++ y)) =
        match m (c :: (cs ++ y)) with
        | none => c :: subScanF m (cs.length + fuel) (cs ++ y)
        | some rest => 32 :: subScanF m (cs.length + fuel) rest from rfl]
    rw [show (c :: cs) ++ y = c :: (cs ++ y) from rfl] at h1
    rw [h1, ih h2 fuel y]

theorem scan_walk' (m : Str → Option Str) (g : Str → Bool)
    (gsound : ∀ a x, g a = true → m (a ++ x) = none)
    (b : Str) (hb : ∀ b2, b2 <:+ b → b2 ≠ [] → g b2 = true) (y : Str) :
    subSub m (b ++ y) = b ++ subScanF m y.length y := by
  unfold subSub
  rw [List.length_append]
  exact scan_walk m g gsound b hb y.length y

theorem suffix_append_cases (t : Str) :
    ∀ (a x : Str), t <:+ a ++ x → (∃ a2, a2 <:+ a ∧ a2 ≠ [] ∧ t = a2 ++ x) ∨ t <:+ x := by
  intro a
  induction a with
  | nil => intro x ht; exact Or.inr (by simpa using ht)
  | cons c cs ih =>
    intro x ht
    rcases List.suffix_cons_iff.mp ht with h1 | h1
    · exact Or.inl ⟨c :: cs, List.suffix_refl _, by simp, h1⟩
    · rcases ih x h1 with ⟨a2, hs, hne, he⟩ | h2
      · exact Or.inl ⟨a2, hs.trans (List.suffix_cons c cs), hne, he⟩
      · exact Or.inr h2

theorem allDF_suffix (g : Str → Bool) :
    ∀ (a a2 : Str), allDF g a = true → a2 <:+ a → a2 ≠ [] → g a2 = true := by
  intro a
  induction a with
  | nil =>
    intro a2 _ hs hne
    exact absurd (List.suffix_nil.mp hs) hne
  | cons c cs ih =>
    intro a2 hall hs hne
    simp only [allDF, Bool.and_eq_true] at hall
    rcases List.suffix_cons_iff.mp hs with h1 | h1
    · rw [h1]; exact hall.1
    · exact ih a2 hall.2 h1 hne

theorem noMatch_append (m : Str → Option Str) (g : Str → Bool)
    (gsound : ∀ a x, g a = true → m (a ++ x) = none)
    (a x : Str) (hg : allDF g a = true) (hx : NoMatch m x) : NoMatch m (a ++ x) := by
  intro t ht
  rcases suffix_append_cases t a x ht with ⟨a2, hs, hne, rfl⟩ | h
  · exact gsound a2 x (allDF_suffix g a a2 hg hs hne)
  · exact hx t h

/-! # Soundness of the definite-failure checkers -/

theorem stripPre_clash (p : Str) :
    ∀ (a x : Str), clash p a = true → stripPre p (a ++ x) = none := by
  induction p with
  | nil => intro a x h; simp [clash] at h
  | cons q qs ih =>
    intro a x h
    cases a with
    | nil => simp [clash] at h
    | cons c cs =>
      simp only [clash, Bool.or_eq_true] at h
      by_cases hqc : q == c
      · rcases h with h | h
        · simp [bne] at h
          exact absurd hqc (by simp [h])
        · simp [stripPre, hqc]
          exact ih cs x h
      · simp [stripPre, hqc]

theorem dropWhile_append_cons (q : Nat → Bool) :
    ∀ (r x : Str) (c : Nat) (cs : Str), r.dropWhile q = c :: cs →
      (r ++ x).dropWhile q = (c :: cs) ++ x := by
  intro r
  induction r with
  | nil => intro x c cs h; simp at h
  | cons a rs ih =>
    intro x c cs h
    by_cases ha : q a
    · rw [List.dropWhile_cons_of_pos ha] at h
      rw [List.cons_append, List.dropWhile_cons_of_pos ha]
      exact ih x c cs h
    · rw [List.dropWhile_cons_of_neg ha] at h
      cases h
      rw [List.cons_append, List.dropWhile_cons_of_neg ha]

theorem dropWhile_append_nil (q : Nat → Bool) :
    ∀ (r x : Str), r.dropWhile q = [] → (r ++ x).dropWhile q = x.dropWhile q := by
  intro r
  induction r with
  | nil => intro x _; simp
  | cons a rs ih =>
    intro x h
    by_cases ha : q a
    · rw [List.dropWhile_cons_of_pos ha] at h
      rw [List.cons_append, List.dropWhile_cons_of_pos ha]
      exact ih x h
    · rw [List.dropWhile_cons_of_neg ha] at h
      simp at h

theorem verbDF_sound (v : Str) (a x : Str) (h : verbDF v a = true) : tryVerb v (a ++ x) = none := by
  simp only [verbDF, Bool.or_eq_true] at h
  rcases h with h | h
  · simp [tryVerb, stripPre_clash v a x h]
  · cases hsp : stripPre v a with
    | none => simp [afterNonWs, hsp] at h
    | some r =>
      rw [hsp] at h
      cases r with
      | nil => simp [afterNonWs] at h
      | cons c t =>
        have hws : isWs c = false := by simpa [afterNonWs] using h
        have h2 := stripPre_append_some v a (c :: t) x hsp
        rw [List.cons_append] at h2
        simp [tryVerb, h2, hws]

theorem lwlDF_sound (l1 l2 : Str) (a x : Str) (h : lwlDF l1 l2 a = true) :
    tryLWL l1 l2 (a ++ x) = none := by
  simp only [lwlDF, Bool.or_eq_true] at h
  rcases h with h | h
  · simp [tryLWL, stripPre_clash l1 a x h]
  · cases hsp : stripPre l1 a with
    | none => simp [lwlDFAux, hsp] at h
    | some r =>
      rw [hsp] at h
      cases hdw : r.dropWhile isWs with
      | nil => simp [lwlDFAux, hdw] at h
      | cons c cs =>
        have hcl : clash l2 (c :: cs) = true := by
          simp only [lwlDFAux] at h
          rw [hdw] at h
          exact h
        have h1 := stripPre_append_some l1 a r x hsp
        have h2 := dropWhile_append_cons isWs r x c cs hdw
        simp only [tryLWL, h1, h2]
        exact stripPre_clash l2 (c :: cs) x hcl

theorem wordDF_sound (w : Str) (a x : Str) (h : wordDF w a = true) :
    tryWordWs w (a ++ x) = none := by
  simp [tryWordWs, stripPre_clash w a x h]

/-! # A matcher is silent on a string that does not contain its literal -/

theorem tryVerb_noMatch (v x : Str) (h : containsB v x = false) : NoMatch (tryVerb v) x := by
  intro t ht
  cases hsp : stripPre v t with
  | none => simp [tryVerb, hsp]
  | some r =>
    have : containsB v x = true :=
      containsB_mono v x t ht (containsB_of_stripPre v t (by simp [hsp]))
    rw [this] at h
    exact absurd h (by simp)

theorem tryWordWs_noMatch (w x : Str) (h : containsB w x = false) : NoMatch (tryWordWs w) x := by
  intro t ht
  cases hsp : stripPre w t with
  | none => simp [tryWordWs, hsp]
  | some r =>
    have : containsB w x = true :=
      containsB_mono w x t ht (containsB_of_stripPre w t (by simp [hsp]))
    rw [this] at h
    exact absurd h (by simp)

theorem tryLWL_noMatch (l1 l2 x : Str) (h : containsB l2 x = false) : NoMatch (tryLWL l1 l2) x := by
  intro t ht
  cases hsp : stripPre l1 t with
  | none => simp [tryLWL, hsp]
  | some r =>
    cases hsp2 : stripPre l2 (r.dropWhile isWs) with
    | none => simp [tryLWL, hsp, hsp2]
    | some u =>
      have hsuf : r.dropWhile isWs <:+ t :=
        (dropWhileWs_suffix isWs r).trans (stripPre_suffix l1 t r hsp)
      have : containsB l2 x = true :=
        containsB_mono l2 x (r.dropWhile isWs) (hsuf.trans ht)
          (containsB_of_stripPre l2 _ (by simp [hsp2]))
      rw [this] at h
      exact absurd h (by simp)

/-! # Claim theorems -/

/-- C3: every command text containing both the substring "post" and the
substring "blog" is classified `facebook_post`, because the facebook_post
rule (rule 1, whose keywords include "post") is evaluated before the
text_generation rule (rule 3) under first-match-wins precedence. -/
theorem C3_post_blog_facebook (t : Str)
    (hpost : containsB (codes "post") t = true)
    (hblog : containsB (codes "blog") t = true) :
    classifyIntent t = Intent.facebook_post := by
  simp [classifyIntent, kwAny, hpost]

theorem C3_witness :
    containsB (codes "post") (codes "post my blog") = true ∧
    containsB (codes "blog") (codes "post my blog") = true ∧
    classifyIntent (codes "post my blog") = Intent.facebook_post :=
  ⟨by decide, by decide, C3_post_blog_facebook (codes "post my blog") (by decide) (by decide)⟩

/-- C5 counterexample: on "generate a sunset over mountains" with the
image patterns the Slot Extractor does not return "sunset over mountains";
the pattern `generate (.+)` captures everything after "generate ",
including the article "a". -/
theorem C5_counterexample :
    extractTopicFromCommand (codes "generate a sunset over mountains") TopicKind.image
      ≠ some (codes "sunset over mountains") := by
  decide

/-- C5 as amended: the Slot Extractor applied to
"generate a sunset over mountains" with the image intent returns
"a sunset over mountains", via the phase-1 regex `generate (.+)` (the
intent-specific patterns are tried in order; the first five do not match,
the sixth captures the whole rest of the text, which `strip` leaves
unchanged). -/
theorem C5_amended :
    extractTopicFromCommand (codes "generate a sunset over mountains") TopicKind.image
      = some (codes "a sunset over mountains") := by
  decide

/-- C6: on the command "post" with the facebook_post intent, topic
extraction yields `none` (no phase-1 pattern matches and keyword
splitting leaves an empty remainder), and `process_facebook_post` returns
success=false with the "couldn't understand" message and
command_type="facebook_post" without invoking the Facebook/generation
collaborator (the Bool component stays false for every oracle). -/
theorem C6_post_no_topic (fbCreate : Str → Bool → Except Str (Bool × FbData)) :
    extractTopicFromCommand (codes "post") TopicKind.post = none ∧
    processFacebookPost fbCreate (codes "post") =
      ({ success := false,
         message := codes "I couldn't understand what you want to post about. Please specify a topic.",
         commandType := codes "facebook_post" }, false) := by
  have h : extractTopicFromCommand (codes "post") TopicKind.post = none := by decide
  exact ⟨h, by simp [processFacebookPost, h]⟩

/-- C7: when every provider in the order is ineligible (absent from the
registry, no credential, or no text capability), `generate_text` returns
the synthesized failure and attempts no provider transport call. -/
theorem C7_all_ineligible (reg : List (Str × AIProvider)) (call : Str → CallOutcome)
    (order : List Str) (h : ∀ q ∈ order, textEligible reg q = false) :
    generateTextGo reg call order
      = ((false, codes "All AI providers failed to generate text response."), []) := by
  induction order with
  | nil => rfl
  | cons n rest ih =>
    have hn := h n (List.mem_cons_self n rest)
    have hr : ∀ q ∈ rest, textEligible reg q = false :=
      fun q hq => h q (List.mem_cons_of_mem n hq)
    unfold textEligible at hn
    cases hlk : lookupProv reg n with
    | none => simp [generateTextGo, hlk, ih hr]
    | some p =>
      rw [hlk] at hn
      cases he : p.apiKey.isEmpty <;> cases ha : p.capabilities.any (fun c => c == codes "text") <;>
        simp_all [generateTextGo, hlk, ih hr]

theorem C7_witness :
    (∀ q ∈ defaultTextOrder, textEligible (initializeProviders []) q = false) ∧
    generateTextGo (initializeProviders []) (fun _ => CallOutcome.success (codes "x"))
        defaultTextOrder
      = ((false, codes "All AI providers failed to generate text response."), []) :=
  ⟨by decide, C7_all_ineligible (initializeProviders [])
    (fun _ => CallOutcome.success (codes "x")) defaultTextOrder (by decide)⟩

/-- C8 counterexample: a persistence exception (the command-history write
raising "db down") is caught at the inner best-effort boundary, not the
dispatcher boundary, so the returned result is the handler's success=true
result and its message does not contain the exception text — against the
claim that an exception at the persistence step is converted into a
success=false result containing the exception text. -/
theorem C8_counterexample :
    processCommand (Except.error (codes "db down")) (fun _ => Except.ok ())
        (fun _ => Except.ok
          { success := true, message := codes "done", commandType := codes "general_query" })
        (codes "hello")
      = { success := true, message := codes "done", commandType := codes "general_query" } ∧
    containsB (codes "db down")
      (processCommand (Except.error (codes "db down")) (fun _ => Except.ok ())
        (fun _ => Except.ok
          { success := true, message := codes "done", commandType := codes "general_query" })
        (codes "hello")).message = false := by
  constructor
  · rfl
  · decide

/-- C8 as amended: `process_command` always returns a structured result
and the result is independent of the outcome of the best-effort
persistence writes (they are caught at an inner boundary and never reach
the returned result); an exception raised out of the
classify/extract/generate step (`classify_and_execute_command`) is caught
at the dispatcher boundary and converted into a success=false result
whose message contains the exception text, never propagated. -/
theorem C8_amended (dbCreate dbCreate2 : Except Str Unit)
    (dbUpdate dbUpdate2 : CmdResult → Except Str Unit)
    (exec : Str → Except Str CmdResult) (cmd : Str) (e : Str)
    (hexec : exec (normalizeCmd cmd) = Except.error e) :
    processCommand dbCreate dbUpdate exec cmd = processCommand dbCreate2 dbUpdate2 exec cmd ∧
    processCommand dbCreate dbUpdate exec cmd =
      { success := false, message := codes "Sorry, I encountered an error: " ++ e,
        commandType := codes "error" } ∧
    containsB e (processCommand dbCreate dbUpdate exec cmd).message = true := by
  refine ⟨rfl, ?_, ?_⟩
  · simp [processCommand, hexec]
  · simp [processCommand, hexec, containsB_append_self]

theorem C8_witness :
    ((fun _ => Except.error (codes "boom") : Str → Except Str CmdResult)
        (normalizeCmd (codes "hi")) = Except.error (codes "boom")) ∧
    (processCommand (Except.ok ()) (fun _ => Except.ok ())
        (fun _ => Except.error (codes "boom")) (codes "hi")
      = processCommand (Except.error (codes "down")) (fun _ => Except.error (codes "down"))
        (fun _ => Except.error (codes "boom")) (codes "hi") ∧
    processCommand (Except.ok ()) (fun _ => Except.ok ())
        (fun _ => Except.error (codes "boom")) (codes "hi")
      = { success := false, message := codes "Sorry, I encountered an error: " ++ codes "boom",
          commandType := codes "error" } ∧
    containsB (codes "boom")
      (processCommand (Except.ok ()) (fun _ => Except.ok ())
        (fun _ => Except.error (codes "boom")) (codes "hi")).message = true) :=
  ⟨rfl, C8_amended (Except.ok ()) (Except.error (codes "down")) (fun _ => Except.ok ())
    (fun _ => Except.error (codes "down")) (fun _ => Except.error (codes "boom"))
    (codes "hi") (codes "boom") rfl⟩

/-- C9 counterexample: `MultiAIService` reads the credentials once, in
`_initialize_providers` at construction.  A service built when the
environment held no keys attempts no provider on a later `generate_text`
call even though the environment has been updated to hold an OpenRouter
key — while a check that observed the updated environment (second
conjunct: the registry rebuilt from it) would attempt openrouter.  The
skip-if-no-credential check therefore does not observe runtime
environment updates, against the claim. -/
theorem C9_counterexample :
    (mGenerateText (initializeProviders [])
        (fun _ => CallOutcome.success (codes "ok")) none).2 = [] ∧
    (mGenerateText (initializeProviders [(codes "OPENROUTER_API_KEY", codes "k")])
        (fun _ => CallOutcome.success (codes "ok")) none).2 = [codes "openrouter"] := by
  constructor
  · rfl
  · rfl

/-- C9 as amended: it is `TextAIService` that re-checks credential
presence against the environment on each call —
`_is_provider_available` runs `os.getenv` at call time, so every provider
its generation loop actually attempts is available in the environment as
of that very call, and environment updates take effect for subsequent
calls without a restart; `MultiAIService`, by contrast, uses the
credential snapshot taken at construction. -/
theorem C9_amended (env : List (Str × Str)) (call : Str → Option Str)
    (order : List Str) (p : Str)
    (hp : p ∈ (taGenerateContentGo env call order).2) :
    taIsProviderAvailable env p = true := by
  induction order with
  | nil => simp [taGenerateContentGo] at hp
  | cons q rest ih =>
    by_cases hq : taIsProviderAvailable env q
    · rw [show taGenerateContentGo env call (q :: rest)
          = if taIsProviderAvailable env q then
              match call q with
              | some content => (some (q, content), [q])
              | none =>
                let t := taGenerateContentGo env call rest
                (t.1, q :: t.2)
            else taGenerateContentGo env call rest from rfl, if_pos hq] at hp
      cases hc : call q with
      | some content =>
        rw [hc] at hp
        simp at hp
        rw [hp]
        exact hq
      | none =>
        rw [hc] at hp
        simp at hp
        rcases hp with hp | hp
        · rw [hp]; exact hq
        · exact ih hp
    · rw [show taGenerateContentGo env call (q :: rest)
          = if taIsProviderAvailable env q then
              match call q with
              | some content => (some (q, content), [q])
              | none =>
                let t := taGenerateContentGo env call rest
                (t.1, q :: t.2)
            else taGenerateContentGo env call rest from rfl, if_neg hq] at hp
      exact ih hp

theorem C9_witness :
    codes "gemini" ∈ (taGenerateContentGo [(codes "GEMINI_API_KEY", codes "k")]
        (fun _ => some (codes "out")) taProviderOrder).2 ∧
    taIsProviderAvailable [(codes "GEMINI_API_KEY", codes "k")] (codes "gemini") = true :=
  ⟨by decide, C9_amended [(codes "GEMINI_API_KEY", codes "k")] (fun _ => some (codes "out"))
    taProviderOrder (codes "gemini") (by decide)⟩

/-- C10: when the Gemini attempt yields nothing and both the Hugging Face
and AIML helpers return nothing, `generate_text_response` returns the
canned apology as an ordinary string, and the general_query dispatch path
wraps whatever string it receives in a success=true result — so total
provider failure on this path is reported as success=true with the
apology message, never as success=false. -/
theorem C10_total_failure_success (clientSome : Bool)
    (gem : Str → Except Str (Option Str)) (hf aiml : Str → Option Str) (cmd : Str)
    (hintent : classifyIntent cmd = Intent.general_query)
    (hg : geminiTryPart clientSome gem cmd = none)
    (hhf : hf cmd = none) (haiml : aiml cmd = none) :
    processGeneralQuery (generateTextResponse clientSome gem hf aiml) cmd
      = { success := true, message := apologyMsg, commandType := codes "general_query" } := by
  simp [processGeneralQuery, generateTextResponse, hg, hhf, haiml]

theorem C10_witness :
    classifyIntent (codes "hello there") = Intent.general_query ∧
    geminiTryPart false (fun _ => Except.error []) (codes "hello there") = none ∧
    processGeneralQuery
        (generateTextResponse false (fun _ => Except.error []) (fun _ => none) (fun _ => none))
        (codes "hello there")
      = { success := true, message := apologyMsg, commandType := codes "general_query" } :=
  ⟨by decide, rfl,
   C10_total_failure_success false (fun _ => Except.error []) (fun _ => none) (fun _ => none)
     (codes "hello there") (by decide) rfl rfl rfl⟩

/-- C1: for every registry, call oracle and ordered provider list
decomposed as `pre ++ p :: post`, if no eligible provider of `pre`
succeeds, `p` is eligible and its call succeeds with payload `r`, then
the Fallback Invoker returns `(true, r)` and the providers actually
invoked are exactly the eligible ones of `pre`, in order, followed by
`p` — in particular nothing in `post` is invoked. -/
theorem C1_fallback_first_success (reg : List (Str × AIProvider)) (call : Str → CallOutcome)
    (pre : List Str) (p : Str) (post : List Str) (r : Str)
    (hpre : ∀ q ∈ pre, textEligible reg q = true → isSuccessO (call q) = false)
    (hp : textEligible reg p = true) (hcall : call p = CallOutcome.success r) :
    generateTextGo reg call (pre ++ p :: post)
      = ((true, r), pre.filter (fun q => textEligible reg q) ++ [p]) := by
  induction pre with
  | nil =>
    simp only [List.nil_append, List.filter_nil]
    unfold textEligible at hp
    cases hlk : lookupProv reg p with
    | none => rw [hlk] at hp; simp at hp
    | some pr =>
      rw [hlk] at hp
      cases he : pr.apiKey.isEmpty <;>
        cases ha : pr.capabilities.any (fun c => c == codes "text") <;>
          simp_all [generateTextGo, hlk, hcall]
  | cons q pre ih =>
    have hq := hpre q (List.mem_cons_self q pre)
    have hrest : ∀ q2 ∈ pre, textEligible reg q2 = true → isSuccessO (call q2) = false :=
      fun q2 hq2 => hpre q2 (List.mem_cons_of_mem q hq2)
    have ihr := ih hrest
    by_cases helig : textEligible reg q = true
    · have hns := hq helig
      have helig' := helig
      unfold textEligible at helig'
      cases hlk : lookupProv reg q with
      | none => rw [hlk] at helig'; simp at helig'
      | some pr =>
        rw [hlk] at helig'
        simp only [Bool.and_eq_true, Bool.not_eq_true'] at helig'
        have hcond : (pr.apiKey.isEmpty
            || !pr.capabilities.any (fun c => c == codes "text")) = false := by
          simp [helig'.1, helig'.2]
        cases hc : call q with
        | success s => rw [hc] at hns; simp [isSuccessO] at hns
        | failure err =>
          simp only [List.cons_append, generateTextGo, hlk, hcond, hc, Bool.false_eq_true,
            if_false, ihr, List.filter_cons_of_pos helig]
          simp [ihr]
        | exn msg =>
          simp only [List.cons_append, generateTextGo, hlk, hcond, hc, Bool.false_eq_true,
            if_false, ihr, List.filter_cons_of_pos helig]
          simp [ihr]
    · have helig2 : textEligible reg q = false := by
        cases h2 : textEligible reg q
        · rfl
        · exact absurd h2 helig
      rw [List.filter_cons_of_neg (by simp [helig2])]
      have helig2' := helig2
      unfold textEligible at helig2'
      cases hlk : lookupProv reg q with
      | none => simpa [generateTextGo, hlk] using ihr
      | some pr =>
        rw [hlk] at helig2'
        have hcond : (pr.apiKey.isEmpty
            || !pr.capabilities.any (fun c => c == codes "text")) = true := by
          cases he : pr.apiKey.isEmpty <;>
            cases ha : pr.capabilities.any (fun c => c == codes "text") <;> simp_all
        simp only [List.cons_append, generateTextGo, hlk, hcond, if_true]
        exact ihr

theorem C1_witness :
    mGenerateText regABC callABC none
      = ((true, codes "reply-B"), [codes "openrouter", codes "deepseek"]) ∧
    codes "gemini" ∉ (mGenerateText regABC callABC none).2 := by
  have h := C1_fallback_first_success regABC callABC [codes "openrouter"] (codes "deepseek")
    [codes "gemini", codes "huggingface"] (codes "reply-B") (by decide) (by decide) (by decide)
  have e : mGenerateText regABC callABC none
      = generateTextGo regABC callABC
          ([codes "openrouter"] ++ codes "deepseek" :: [codes "gemini", codes "huggingface"]) :=
    rfl
  constructor
  · rw [e, h]; decide
  · rw [e, h]; decide

/-- C2 counterexample: the item loop of `process_auto_replies` runs inside
a single try block, so a failure while processing one item is not
isolated.  With three unread items where item 2's database logging raises,
the pass returns the empty list (not three records: items 1 and 3 are not
reported at all), and the only persisted record is item 1's. -/
theorem C2_counterexample :
    processAutoReplies genW sendW logW [itemA, itemB, itemC]
      = ([], [sentRecord itemA (genW (origOf itemA))]) ∧
    (processAutoReplies genW sendW logW [itemA, itemB, itemC]).1.length ≠ 3 := by
  constructor
  · rfl
  · decide

/-- The item loop under a database log that never raises: one returned
entry per item, `sent` or `failed` according to the send outcome, and one
persisted record per sent item. -/
theorem processItems_allOk (gen : Str → Str) (send : Str → Str → Bool × Str)
    (logDb : EmailItem → Str → Except Str Unit)
    (hlog : ∀ it reply, logDb it reply = Except.ok ()) :
    ∀ items : List EmailItem,
      processItems gen send logDb items
        = (Except.ok (items.map (fun it =>
              if (send it.idStr (gen (origOf it))).1 then sentEntry it (gen (origOf it))
              else failedEntry it (send it.idStr (gen (origOf it))).2)),
           (items.filter (fun it => (send it.idStr (gen (origOf it))).1)).map
              (fun it => sentRecord it (gen (origOf it)))) := by
  intro items
  induction items with
  | nil => rfl
  | cons it rest ih =>
    by_cases hs : (send it.idStr (gen (origOf it))).1 = true
    · simp [processItems, hs, hlog, ih, List.filter_cons_of_pos hs, Except.map]
    · have hs2 : (send it.idStr (gen (origOf it))).1 = false := by
        cases h2 : (send it.idStr (gen (origOf it))).1
        · rfl
        · exact absurd h2 hs
      have hfilt : List.filter (fun it2 => (send it2.idStr (gen (origOf it2))).1) (it :: rest)
          = List.filter (fun it2 => (send it2.idStr (gen (origOf it2))).1) rest := by
        rw [List.filter_cons_of_neg]
        simp [hs2]
      simp [processItems, hs2, ih, hfilt, Except.map]

/-- C2 as amended: when per-item database logging raises no exception, a
send failure for one item (reported through `send_reply`'s returned Bool)
does not abort the remaining items — the pass returns exactly one entry
per item, with status `sent` or `failed` by the send outcome; however a
persisted Auto-Reply Record is appended only for sent items, and (per the
counterexample) an exception during an item's database logging aborts the
whole pass, which then returns the empty list. -/
theorem C2_amended (gen : Str → Str) (send : Str → Str → Bool × Str)
    (logDb : EmailItem → Str → Except Str Unit) (items : List EmailItem)
    (hlog : ∀ it reply, logDb it reply = Except.ok ()) :
    processAutoReplies gen send logDb items
      = (items.map (fun it =>
            if (send it.idStr (gen (origOf it))).1 then sentEntry it (gen (origOf it))
            else failedEntry it (send it.idStr (gen (origOf it))).2),
         (items.filter (fun it => (send it.idStr (gen (origOf it))).1)).map
            (fun it => sentRecord it (gen (origOf it)))) := by
  unfold processAutoReplies
  rw [processItems_allOk gen send logDb hlog items]

theorem C2_witness :
    (∀ it reply, logW2 it reply = Except.ok ()) ∧
    processAutoReplies genW sendW2 logW2 [itemA, itemB, itemC]
      = ([sentEntry itemA (genW (origOf itemA)),
          failedEntry itemB (codes "Error: smtp refused"),
          sentEntry itemC (genW (origOf itemC))],
         [sentRecord itemA (genW (origOf itemA)), sentRecord itemC (genW (origOf itemC))]) :=
  ⟨fun _ _ => rfl,
   (C2_amended genW sendW2 logW2 [itemA, itemB, itemC] (fun _ _ => rfl)).trans (by decide)⟩

/-! # Lemmas for the whitespace split, and the amended C4 -/

theorem dropWhile_length_le (q : Nat → Bool) : ∀ l : Str, (l.dropWhile q).length ≤ l.length := by
  intro l
  induction l with
  | nil => simp
  | cons c cs ih =>
    by_cases hc : q c
    · rw [List.dropWhile_cons_of_pos hc]
      exact ih.trans (by simp)
    · rw [List.dropWhile_cons_of_neg hc]

theorem splitWsF_ws (c : Nat) (cs : Str) (fuel : Nat) (h : isWs c = true) :
    splitWsF (fuel + 1) (c :: cs) = splitWsF fuel cs := by
  simp [splitWsF, h]

theorem splitWsF_word (c : Nat) (cs : Str) (fuel : Nat) (h : isWs c = false) :
    splitWsF (fuel + 1) (c :: cs)
      = (c :: cs.takeWhile (fun d => !isWs d)) :: splitWsF fuel (cs.dropWhile (fun d => !isWs d)) := by
  simp [splitWsF, h]

theorem splitWsF_fuel : ∀ (f1 f2 : Nat) (s : Str), s.length ≤ f1 → s.length ≤ f2 →
    splitWsF f1 s = splitWsF f2 s := by
  intro f1
  induction f1 with
  | zero =>
    intro f2 s h1 _
    have : s = [] := List.eq_nil_of_length_eq_zero (Nat.le_zero.mp h1)
    subst this
    cases f2 <;> rfl
  | succ g ih =>
    intro f2 s h1 h2
    cases s with
    | nil => cases f2 <;> rfl
    | cons c cs =>
      obtain ⟨g2, rfl⟩ : ∃ g2, f2 = g2 + 1 := by
        cases f2 with
        | zero => simp at h2
        | succ g2 => exact ⟨g2, rfl⟩
      by_cases hc : isWs c
      · rw [splitWsF_ws c cs g hc, splitWsF_ws c cs g2 hc]
        exact ih g2 cs (by simpa using Nat.le_of_succ_le_succ (by simpa using h1))
          (by simpa using Nat.le_of_succ_le_succ (by simpa using h2))
      · have hc2 : isWs c = false := by
          cases h : isWs c
          · rfl
          · exact absurd h hc
        rw [splitWsF_word c cs g hc2, splitWsF_word c cs g2 hc2]
        have hlen : (cs.dropWhile (fun d => !isWs d)).length ≤ cs.length :=
          dropWhile_length_le _ cs
        have h1' : cs.length ≤ g := by simpa using Nat.le_of_succ_le_succ (by simpa using h1)
        have h2' : cs.length ≤ g2 := by simpa using Nat.le_of_succ_le_succ (by simpa using h2)
        rw [ih g2 (cs.dropWhile (fun d => !isWs d)) (hlen.trans h1') (hlen.trans h2')]

/-- Splitting the fixed Python intermediate string " blog  " ++ X on
whitespace yields the word "blog" followed by the words of X. -/
theorem splitWs_blog_head (X : Str) :
    splitWs (codes " blog  " ++ X) = codes "blog" :: splitWs X := by
  have hchain : codes " blog  " ++ X = 32 :: 98 :: 108 :: 111 :: 103 :: 32 :: 32 :: X := by
    rw [show codes " blog  " = [32, 98, 108, 111, 103, 32, 32] from by decide]
    rfl
  unfold splitWs
  rw [hchain]
  have hlen : (32 :: 98 :: 108 :: 111 :: 103 :: 32 :: 32 :: X).length = X.length + 7 := by
    simp only [List.length_cons]
  rw [hlen]
  rw [show X.length + 7 = (X.length + 6) + 1 from rfl, splitWsF_ws 32 _ _ (by decide)]
  rw [show X.length + 6 = (X.length + 5) + 1 from rfl, splitWsF_word 98 _ _ (by decide)]
  have htake : (108 :: 111 :: 103 :: 32 :: 32 :: X).takeWhile (fun d => !isWs d)
      = [108, 111, 103] := by
    simp [List.takeWhile_cons, isWs]
  have hdrop : (108 :: 111 :: 103 :: 32 :: 32 :: X).dropWhile (fun d => !isWs d)
      = 32 :: 32 :: X := by
    simp [List.dropWhile_cons, isWs]
  rw [htake, hdrop]
  rw [show X.length + 5 = (X.length + 4) + 1 from rfl, splitWsF_ws 32 _ _ (by decide)]
  rw [show X.length + 4 = (X.length + 3) + 1 from rfl, splitWsF_ws 32 _ _ (by decide)]
  rw [splitWsF_fuel (X.length + 3) X.length X (by omega) (Nat.le_refl _)]
  rw [show (codes "blog" : Str) = [98, 108, 111, 103] from by decide]

/-- C4 counterexample: on "write a blog about cats" the intent and
content sub-type are as claimed, but the extracted topic is "blog cats",
not "cats" — the removal pattern for the sub-type is the literal regex
`blog\s*article`, which does not match the lone word "blog", so "blog"
survives into the topic. -/
theorem C4_counterexample :
    classifyIntent (codes "write a blog about cats") = Intent.text_generation ∧
    inferContentType (codes "write a blog about cats") = ContentType.blog_article ∧
    extractTextTopic (codes "write a blog about cats") ContentType.blog_article
      = some (codes "blog cats") ∧
    some (codes "blog cats") ≠ some (codes "cats") := by
  refine ⟨by decide, by decide, by decide, by decide⟩

/-- C4 as amended: for every command "write a blog about X" where X is
nonempty, lower-case, whitespace-normalised and contains none of the
earlier classification rules' keywords nor the removal-pattern triggers
(`kwAvoid`), the detected intent is text_generation and the inferred
sub-type is blog_article as claimed, but the extracted topic is
"blog X" — the word "blog" is retained, since the sub-type removal
pattern is `blog\s*article` and "article" does not occur. -/
theorem C4_amended (X : Str)
    (hlow : lowerL X = X) (hne : X ≠ []) (hnorm : normWs X = X)
    (hhead : X.dropWhile isWs = X) (hkw : cleanTopic X = true) :
    classifyIntent (codes "write a blog about " ++ X) = Intent.text_generation ∧
    inferContentType (codes "write a blog about " ++ X) = ContentType.blog_article ∧
    extractTextTopic (codes "write a blog about " ++ X) ContentType.blog_article
      = some (codes "blog " ++ X) := by
  simp only [cleanTopic, kwAvoid, List.all_cons, List.all_nil, Bool.and_eq_true,
    Bool.and_true, Bool.not_eq_true'] at hkw
  obtain ⟨hfb, hpost, hshare, himg, hpic, hwrite, hcreate, hgen, hmake, harticle,
    habout, hfor, hon⟩ := hkw
  -- the keyword "create image" cannot occur when "create" does not
  have hci : containsB (codes "create image") X = false := by
    cases h2 : containsB (codes "create image") X
    · rfl
    · have h3 := containsB_sub_of_pre (codes "create") (codes "create image") (by decide) X h2
      rw [h3] at hcreate
      cases hcreate
  -- the rule-1 and rule-2 keyword tests over the whole command reduce to
  -- tests over X: the fixed prefix contains no occurrence and no
  -- occurrence can span the boundary
  have cfb : containsB (codes "facebook") (codes "write a blog about " ++ X)
      = containsB (codes "facebook") X := by
    simp [codes, containsB, isPre, stripPre]
  have cpost : containsB (codes "post") (codes "write a blog about " ++ X)
      = containsB (codes "post") X := by
    simp [codes, containsB, isPre, stripPre]
  have cshare : containsB (codes "share") (codes "write a blog about " ++ X)
      = containsB (codes "share") X := by
    simp [codes, containsB, isPre, stripPre]
  have cimg : containsB (codes "image") (codes "write a blog about " ++ X)
      = containsB (codes "image") X := by
    simp [codes, containsB, isPre, stripPre]
  have cpic : containsB (codes "picture") (codes "write a blog about " ++ X)
      = containsB (codes "picture") X := by
    simp [codes, containsB, isPre, stripPre]
  have cgen : containsB (codes "generate") (codes "write a blog about " ++ X)
      = containsB (codes "generate") X := by
    simp [codes, containsB, isPre, stripPre]
  have cci : containsB (codes "create image") (codes "write a blog about " ++ X)
      = containsB (codes "create image") X := by
    simp [codes, containsB, isPre, stripPre]
  have cwrite : containsB (codes "write") (codes "write a blog about " ++ X) = true :=
    containsB_append_right (codes "write") (codes "write a blog about ") X (by decide)
  have cblog : containsB (codes "blog") (codes "write a blog about " ++ X) = true :=
    containsB_append_right (codes "blog") (codes "write a blog about ") X (by decide)
  refine ⟨?_, ?_, ?_⟩
  · simp [classifyIntent, kwAny, cfb, cpost, cshare, cimg, cpic, cgen, cci, cwrite,
      hfb, hpost, hshare, himg, hpic, hgen, hci]
  · simp [inferContentType, cblog]
  · -- the eight removal substitutions, then the whitespace cleanup
    have nmW : NoMatch (tryVerb (codes "write")) X := tryVerb_noMatch _ X hwrite
    have nmC : NoMatch (tryVerb (codes "create")) X := tryVerb_noMatch _ X hcreate
    have nmG : NoMatch (tryVerb (codes "generate")) X := tryVerb_noMatch _ X hgen
    have nmM : NoMatch (tryVerb (codes "make")) X := tryVerb_noMatch _ X hmake
    have nmBA : NoMatch (tryLWL (codes "blog") (codes "article")) X :=
      tryLWL_noMatch _ _ X harticle
    have nmAb : NoMatch (tryWordWs (codes "about")) X := tryWordWs_noMatch _ X habout
    have nmF : NoMatch (tryWordWs (codes "for")) X := tryWordWs_noMatch _ X hfor
    have nmOn : NoMatch (tryWordWs (codes "on")) X := tryWordWs_noMatch _ X hon
    have hlow2 : List.map lowCh X = X := hlow
    have h0 : lowerL (codes "write a blog about " ++ X) = codes "write a blog about " ++ X := by
      unfold lowerL
      rw [List.map_append,
        show List.map lowCh (codes "write a blog about ") = codes "write a blog about " from
          by decide, hlow2]
    have s1 : subSub (tryVerb (codes "write")) (codes "write a blog about " ++ X)
        = codes " blog about " ++ X := by
      have hm : tryVerb (codes "write") (codes "write a blog about " ++ X)
          = some (codes "blog about " ++ X) := by
        simp [codes, tryVerb, stripPre, isWs]
      have hnm : NoMatch (tryVerb (codes "write")) (codes "blog about " ++ X) :=
        noMatch_append _ (verbDF (codes "write")) (verbDF_sound (codes "write"))
          (codes "blog about ") X (by decide) nmW
      rw [scan_front' _ _ _ hm hnm (by simp [codes])]
      rw [show codes " blog about " = 32 :: codes "blog about " from by decide]
      rfl
    have s2 : subSub (tryVerb (codes "create")) (codes " blog about " ++ X)
        = codes " blog about " ++ X :=
      scan_skip _ _ (noMatch_append _ (verbDF (codes "create")) (verbDF_sound _)
        (codes " blog about ") X (by decide) nmC)
    have s3 : subSub (tryVerb (codes "generate")) (codes " blog about " ++ X)
        = codes " blog about " ++ X :=
      scan_skip _ _ (noMatch_append _ (verbDF (codes "generate")) (verbDF_sound _)
        (codes " blog about ") X (by decide) nmG)
    have s4 : subSub (tryVerb (codes "make")) (codes " blog about " ++ X)
        = codes " blog about " ++ X :=
      scan_skip _ _ (noMatch_append _ (verbDF (codes "make")) (verbDF_sound _)
        (codes " blog about ") X (by decide) nmM)
    have hctm : tryCt (ctPat ContentType.blog_article)
        = tryLWL (codes "blog") (codes "article") := by
      funext s
      rfl
    have s5 : subSub (tryCt (ctPat ContentType.blog_article)) (codes " blog about " ++ X)
        = codes " blog about " ++ X := by
      rw [hctm]
      exact scan_skip _ _ (noMatch_append _ (lwlDF (codes "blog") (codes "article"))
        (lwlDF_sound _ _) (codes " blog about ") X (by decide) nmBA)
    have s6 : subSub (tryWordWs (codes "about")) (codes " blog about " ++ X)
        = codes " blog  " ++ X := by
      have hsplit : codes " blog about " ++ X = codes " blog " ++ (codes "about " ++ X) := by
        rw [show codes " blog about " = codes " blog " ++ codes "about " from by decide,
          List.append_assoc]
      rw [hsplit]
      rw [scan_walk' _ (wordDF (codes "about")) (wordDF_sound _) (codes " blog ")
        (fun b2 hs hne2 => allDF_suffix _ _ _ (by decide) hs hne2) (codes "about " ++ X)]
      have hm : tryWordWs (codes "about") (codes "about " ++ X) = some X := by
        have h1 : stripPre (codes "about") (codes "about " ++ X) = some (32 :: X) := by
          have h2 := stripPre_append_some (codes "about") (codes "about ") [32] X (by decide)
          simpa using h2
        have h2 : (32 :: X).dropWhile isWs = X := by
          rw [List.dropWhile_cons_of_pos (by decide)]
          exact hhead
        simp [tryWordWs, h1, h2]
      have hlen1 : 1 ≤ (codes "about " ++ X).length := by
        rw [List.length_append, show (codes "about ").length = 6 from by decide]
        omega
      rw [scan_front _ _ _ _ hm nmAb (by simp [codes]) hlen1]
      rw [show codes " blog  " = codes " blog " ++ [32] from by decide, List.append_assoc]
      rfl
    have s7 : subSub (tryWordWs (codes "for")) (codes " blog  " ++ X)
        = codes " blog  " ++ X :=
      scan_skip _ _ (noMatch_append _ (wordDF (codes "for")) (wordDF_sound _)
        (codes " blog  ") X (by decide) nmF)
    have s8 : subSub (tryWordWs (codes "on")) (codes " blog  " ++ X)
        = codes " blog  " ++ X :=
      scan_skip _ _ (noMatch_append _ (wordDF (codes "on")) (wordDF_sound _)
        (codes " blog  ") X (by decide) nmOn)
    have hnejoin : splitWs X ≠ [] := by
      intro h
      have h2 : normWs X = [] := by
        unfold normWs
        rw [h]
        rfl
      rw [hnorm] at h2
      exact hne h2
    obtain ⟨w, ws, hws⟩ : ∃ w ws, splitWs X = w :: ws := by
      cases h : splitWs X with
      | nil => exact absurd h hnejoin
      | cons w ws => exact ⟨w, ws, rfl⟩
    have hjoin : normWs (codes " blog  " ++ X) = codes "blog " ++ X := by
      unfold normWs
      rw [splitWs_blog_head X, hws]
      rw [show joinWords (codes "blog" :: w :: ws)
          = codes "blog" ++ 32 :: joinWords (w :: ws) from rfl]
      rw [← hws]
      rw [show joinWords (splitWs X) = X from hnorm]
      rw [show codes "blog " = codes "blog" ++ [32] from by decide, List.append_assoc]
      rfl
    have hiflen : 2 < (codes "blog " ++ X).length := by
      rw [List.length_append, show (codes "blog ").length = 5 from by decide]
      omega
    simp only [extractTextTopic, h0, s1, s2, s3, s4, s5, s6, s7, s8, hjoin]
    rw [if_pos hiflen]

theorem C4_witness :
    (lowerL (codes "cats") = codes "cats" ∧ codes "cats" ≠ [] ∧
     normWs (codes "cats") = codes "cats" ∧
     (codes "cats").dropWhile isWs = codes "cats" ∧ cleanTopic (codes "cats") = true) ∧
    (classifyIntent (codes "write a blog about " ++ codes "cats") = Intent.text_generation ∧
     inferContentType (codes "write a blog about " ++ codes "cats") = ContentType.blog_article ∧
     extractTextTopic (codes "write a blog about " ++ codes "cats") ContentType.blog_article
       = some (codes "blog " ++ codes "cats")) :=
  ⟨⟨by decide, by decide, by decide, by decide, by decide⟩,
   C4_amended (codes "cats") (by decide) (by decide) (by decide) (by decide) (by decide)⟩
